import Mathlib

/-!
# Verification of the 3n+1 sequence analytics engine

Shallow embedding of the analytics core of the `3n-1` repository
(`src/js/algorithm.js`, the data manager module, and
`src/js/comparisonAnalyzer.js`), together with proofs checking the
natural-language specification against it.

Modelling conventions:
* JavaScript numbers are modelled as `ℕ` (sequence values, counts, indices),
  `ℚ` (averages, ratios, correlation data) or — for the user-facing input of
  `generateSequence`, where `Number.isInteger` is checked — as `ℚ`.
* A thrown JavaScript exception is modelled with `Except`/`Option`.
* `Date.now()` / `new Date()` are modelled by an explicit `now : ℕ` argument.
* Observer notification (`notifyListeners`) is modelled by returning the list
  of emitted events.
-/

set_option maxRecDepth 8000

namespace Collatz

/-! ## `CollatzAlgorithm` (src/js/algorithm.js) -/

/-- `CollatzAlgorithm.getNextNumber`: `n % 2 === 0 ? n / 2 : 3 * n + 1`.
For even `n` the JS float division `n / 2` is exact, so `Nat` division agrees. -/
def getNextNumber (n : ℕ) : ℕ :=
  if n % 2 = 0 then n / 2 else 3 * n + 1

/-- The `while (current !== 1 && iterations < maxIterations)` loop of
`generateSequence`, with `fuel = maxIterations - iterations` remaining
iterations.  Returns the list of values pushed by the loop (the body pushes
the updated `current` each iteration). -/
def collatzLoop : ℕ → ℕ → List ℕ
  | 0, _ => []
  | fuel + 1, current =>
    if current = 1 then []
    else
      let next := if current % 2 = 0 then current / 2 else 3 * current + 1
      next :: collatzLoop fuel next

/-- The iteration cap `maxIterations = 1000000` of `generateSequence`. -/
def maxIterations : ℕ := 1000000

/-- `CollatzAlgorithm.generateSequence(startNumber)`.
The input is a JS number, modelled as `ℚ` so that the
`!Number.isInteger(startNumber) || startNumber < 1` validation is expressible;
`Number.isInteger q` is `q.den = 1`.  A thrown `Error` is `Except.error`. -/
def generateSequence (startNumber : ℚ) : Except String (List ℕ) :=
  if ¬ startNumber.den = 1 ∨ startNumber < 1 then
    Except.error "InvalidInputError"
  else
    let s := startNumber.num.toNat
    Except.ok (s :: collatzLoop maxIterations s)

/-- `Math.max(...sequence)` for a list of naturals (callers guard non-empty). -/
def listMax (l : List ℕ) : ℕ := l.foldl max 0

/-- `Math.min(...sequence)` for a non-empty list of naturals. -/
def listMin : List ℕ → ℕ
  | [] => 0
  | h :: t => t.foldl min h

/-- The direction-change loop shared by `calculateStatistics` (`complexity`)
and `analyzeConvergence` (`oscillations`): the number of interior indices `i`
with `(curr > prev && curr > next) || (curr < prev && curr < next)`. -/
def countLocalExtrema : List ℕ → ℕ
  | a :: b :: c :: rest =>
    (if (a < b ∧ c < b) ∨ (b < a ∧ b < c) then 1 else 0)
      + countLocalExtrema (b :: c :: rest)
  | _ => 0

/-- The statistics object built by `CollatzAlgorithm.calculateStatistics`. -/
structure Stats where
  length : ℕ
  maxValue : ℕ
  minValue : ℕ
  steps : ℕ
  hasReachedOne : Bool
  startNumber : ℕ
  endNumber : ℕ
  averageValue : ℚ
  evenCount : ℕ
  oddCount : ℕ
  maxValueIndex : ℕ
  peakToTroughRatio : ℚ
  complexity : ℕ
  deriving Repr, DecidableEq

/-- `CollatzAlgorithm.calculateStatistics(sequence)`; throws on an empty
array (`none`). -/
def calculateStatistics (sequence : List ℕ) : Option Stats :=
  if sequence = [] then none
  else some
    { length := sequence.length
      maxValue := listMax sequence
      minValue := listMin sequence
      steps := sequence.length - 1
      hasReachedOne := sequence.getLast? = some 1
      startNumber := sequence.headD 0
      endNumber := sequence.getLastD 0
      averageValue := (sequence.sum : ℚ) / sequence.length
      evenCount := (sequence.filter fun n => n % 2 = 0).length
      oddCount := (sequence.filter fun n => n % 2 = 1).length
      maxValueIndex := sequence.indexOf (listMax sequence)
      peakToTroughRatio :=
        if 0 < listMin sequence then
          (listMax sequence : ℚ) / (listMin sequence : ℚ)
        else 0
      complexity := countLocalExtrema sequence }

/-- `indexOf(v, from)` on an array: first index `≥ from` holding `v`
(`none` for JS `-1`). -/
def indexOfFrom (l : List ℕ) (v : ℕ) (start : ℕ) : Option ℕ :=
  ((l.drop start).indexOf? v).map (· + start)

/-- `CollatzAlgorithm.findRepeatingPatterns(sequence)`. -/
def findRepeatingPatterns (sequence : List ℕ) : List (List ℕ) :=
  let maxPatternLength := min 10 (sequence.length / 2)
  (List.range' 2 (maxPatternLength - 1)).flatMap fun patternLength =>
    (List.range (sequence.length - patternLength * 2 + 1)).filterMap fun start =>
      let pat := (sequence.drop start).take patternLength
      match indexOfFrom sequence (pat.headD 0) (start + patternLength) with
      | none => none
      | some k =>
        let nextPat := (sequence.drop k).take patternLength
        if pat = nextPat then some pat else none

/-- The patterns object of `CollatzAlgorithm.analyzePatterns`.  `growthRate`
holds `sequence[i] / sequence[i-1]`, exact rationals standing for the host's
float quotients. -/
structure PatternsInfo where
  cycles : List (List ℕ)
  repeatingPatterns : List (List ℕ)
  growthRate : List ℚ
  stepTypes : List String
  deriving Repr, DecidableEq

/-- `CollatzAlgorithm.analyzePatterns(sequence)`.  The step-type test
`next === current / 2` is JS float division, hence the exact rational
comparison; `cycles` is initialised to `[]` and never filled by the source. -/
def analyzePatterns (sequence : List ℕ) : PatternsInfo :=
  { cycles := []
    repeatingPatterns := findRepeatingPatterns sequence
    growthRate := List.zipWith (fun a b => (b : ℚ) / (a : ℚ)) sequence sequence.tail
    stepTypes :=
      (List.zip sequence sequence.tail).filterMap fun p =>
        if (p.2 : ℚ) = (p.1 : ℚ) / 2 then some "divide"
        else if p.2 = 3 * p.1 + 1 then some "multiply"
        else none }

/-! ## `DataManager` (data-manager module) -/

/-- `generateId()`: the template literal
`seq_TIMESTAMP_COUNTER` built from `Date.now()` and the incremented
`currentSequenceId`. -/
def mkId (now counter : ℕ) : String :=
  "seq_" ++ toString now ++ "_" ++ toString counter

/-- `generateColor(index)`: the fixed ten-colour palette indexed modulo 10. -/
def generateColor (index : ℕ) : String :=
  let colors := ["#3b82f6", "#ef4444", "#10b981", "#f59e0b", "#8b5cf6",
                 "#06b6d4", "#f97316", "#ec4899", "#84cc16", "#6366f1"]
  colors.getD (index % colors.length) ""

/-- A stored sequence record (`sequenceData` in `DataManager.addSequence`).
`createdAt` is the `new Date().toISOString()` timestamp, modelled by the
numeric instant. -/
structure SequenceData where
  id : String
  startNumber : ℕ
  sequence : List ℕ
  statistics : Stats
  color : String
  createdAt : ℕ
  patterns : PatternsInfo
  deriving Repr, DecidableEq

/-- The mutable state of a `DataManager` instance. -/
structure DataManager where
  sequences : List SequenceData
  currentSequenceId : ℕ
  deriving Repr, DecidableEq

/-- `this.maxSequences = 10`. -/
def maxSequences : ℕ := 10

/-- `new DataManager()`. -/
def initDM : DataManager := ⟨[], 0⟩

/-- Events passed to `notifyListeners`; the observer mechanism is modelled by
the list of events a mutating operation emits. -/
inductive DMEvent where
  | sequenceAdded (d : SequenceData)
  | sequenceRemoved (d : SequenceData)
  | sequencesCleared
  deriving Repr, DecidableEq

/-- Result of `DataManager.addSequence`: the state after the call, the record
returned (`none` when `calculateStatistics` throws on an invalid sequence —
in that case the eviction shift and the id-counter increment have already
mutated the state), and the emitted notifications. -/
structure AddResult where
  state : DataManager
  record : Option SequenceData
  events : List DMEvent
  deriving Repr, DecidableEq

/-- `DataManager.addSequence(startNumber, sequence)` at instant `now`.
Mirrors the source order: eviction `shift()` when
`sequences.length >= maxSequences`, then `generateId()` (incrementing
`currentSequenceId`), then statistics, then the colour from the
post-eviction length, then `push` and the `sequenceAdded` notification. -/
def addSequence (dm : DataManager) (now startNumber : ℕ) (sequence : List ℕ) :
    AddResult :=
  let seqs1 :=
    if maxSequences ≤ dm.sequences.length then dm.sequences.drop 1
    else dm.sequences
  let cid := dm.currentSequenceId + 1
  let id := mkId now cid
  match calculateStatistics sequence with
  | none => ⟨⟨seqs1, cid⟩, none, []⟩
  | some statistics =>
    let sequenceData : SequenceData :=
      { id := id
        startNumber := startNumber
        sequence := sequence
        statistics := statistics
        color := generateColor seqs1.length
        createdAt := now
        patterns := analyzePatterns sequence }
    ⟨⟨seqs1 ++ [sequenceData], cid⟩, some sequenceData,
      [DMEvent.sequenceAdded sequenceData]⟩

/-- `DataManager.removeSequence(id)`: state, the returned boolean, events. -/
def removeSequence (dm : DataManager) (id : String) :
    DataManager × Bool × List DMEvent :=
  match dm.sequences.findIdx? (fun s => s.id = id) with
  | none => (dm, false, [])
  | some i =>
    (⟨dm.sequences.eraseIdx i, dm.currentSequenceId⟩, true,
      match dm.sequences.get? i with
      | some r => [DMEvent.sequenceRemoved r]
      | none => [])

/-- `DataManager.clearSequences()`. -/
def clearSequences (dm : DataManager) : DataManager × List DMEvent :=
  (⟨[], dm.currentSequenceId⟩, [DMEvent.sequencesCleared])

/-- The store operations the invariant claims quantify over. -/
inductive Op where
  | add (now startNumber : ℕ) (sequence : List ℕ)
  | remove (id : String)
  | clear
  deriving Repr, DecidableEq

/-- State transition of one operation. -/
def applyOp (dm : DataManager) : Op → DataManager
  | .add now st sq => (addSequence dm now st sq).state
  | .remove id => (removeSequence dm id).1
  | .clear => (clearSequences dm).1

/-- Running a list of operations from a state. -/
def runOps (dm : DataManager) (ops : List Op) : DataManager :=
  ops.foldl applyOp dm

/-- The ids assigned to records by the `addSequence` calls of an operation
trace (an id is assigned only when a record is actually created). -/
def opsIds : DataManager → List Op → List String
  | _, [] => []
  | dm, op :: rest =>
    (match op with
     | .add now st sq =>
       match (addSequence dm now st sq).record with
       | some r => [r.id]
       | none => []
     | _ => []) ++ opsIds (applyOp dm op) rest

/-! ## `ComparisonAnalyzer` (src/js/comparisonAnalyzer.js) -/

/-- The result object of `ComparisonAnalyzer.analyzeConvergence`. -/
structure ConvergenceAnalysis where
  convergenceType : String
  convergenceSpeed : ℚ
  oscillationLevel : ℚ
  stabilityScore : ℚ
  deriving Repr, DecidableEq

/-- `sequence.slice(-Math.min(10, Math.floor(sequence.length * 0.2)))`.
For the relevant range (the `min` caps the window at 10) the float product
`length * 0.2` floors to `length / 5`; JS `slice(-0)` is `slice(0)`, i.e. the
whole array, which the `k = 0` branch reproduces. -/
def trailingWindow (s : List ℕ) : List ℕ :=
  let k := min 10 (s.length / 5)
  if k = 0 then s else s.drop (s.length - k)

/-- The `every((val, idx) => idx === 0 || val <= lastValues[idx - 1])` test
(`isDecreasing`), translated index for index. -/
def isDecreasingJS (l : List ℕ) : Bool :=
  (List.range l.length).all fun idx =>
    idx == 0 || decide (l.getD idx 0 ≤ l.getD (idx - 1) 0)

/-- `ComparisonAnalyzer.analyzeConvergence(sequence)`.  `stabilityScore`
divides by `maxDifference`; for a constant sequence the host produces `NaN`
where `ℚ` division by zero yields `0` — no claim depends on that value.
`Math.max(...lastValues) * 0.5` is the exact rational halving (0.5 is an
exact float). -/
def analyzeConvergence (sequence : List ℕ) : ConvergenceAnalysis :=
  if sequence.length < 3 then
    { convergenceType := "unknown", convergenceSpeed := 0
      oscillationLevel := 0, stabilityScore := 0 }
  else
    let oscillations := countLocalExtrema sequence
    let oscillationLevel : ℚ := (oscillations : ℚ) / ((sequence.length : ℚ) - 2)
    let differences :=
      List.zipWith (fun a b => ((b : ℤ) - (a : ℤ)).natAbs) sequence sequence.tail
    let avgDifference : ℚ := (differences.sum : ℚ) / (differences.length : ℚ)
    let maxDifference := listMax differences
    let stabilityScore : ℚ := 1 - avgDifference / (maxDifference : ℚ)
    let lastValues := trailingWindow sequence
    let isDecreasing := isDecreasingJS lastValues
    let isConverging :=
      decide ((lastValues.getLastD 0 : ℚ) ≤ (listMax lastValues : ℚ) * (1 / 2))
    if isDecreasing && isConverging then
      { convergenceType := "smooth", convergenceSpeed := 1 - oscillationLevel
        oscillationLevel := oscillationLevel, stabilityScore := stabilityScore }
    else if 1 / 2 < oscillationLevel then
      { convergenceType := "oscillating", convergenceSpeed := 1 / 2
        oscillationLevel := oscillationLevel, stabilityScore := stabilityScore }
    else
      { convergenceType := "irregular", convergenceSpeed := 3 / 10
        oscillationLevel := oscillationLevel, stabilityScore := stabilityScore }

/-- The exact data behind one Pearson coefficient of
`ComparisonAnalyzer.calculateCorrelation(x, y)`: the numerator
`n*sumXY - sumX*sumY` and the squared denominator
`(n*sumX2 - sumX^2) * (n*sumY2 - sumY^2)` (the host takes `Math.sqrt` of the
latter; the real-valued quotient is `correlationValue` below).  The early
`n !== y.length || n === 0` return of `0` is the `⟨0, 0⟩` datum, whose value
is `0`. -/
structure CorrelationData where
  num : ℚ
  denSq : ℚ
  deriving Repr, DecidableEq

/-- `ComparisonAnalyzer.calculateCorrelation(x, y)` (exact data; the `reduce`
sums are written as indexed range sums since the source indexes `y[i]`). -/
def calculateCorrelation (x y : List ℚ) : CorrelationData :=
  if x.length ≠ y.length ∨ x.length = 0 then ⟨0, 0⟩
  else
    let n : ℚ := x.length
    let sumX := ∑ i ∈ Finset.range x.length, x.getD i 0
    let sumY := ∑ i ∈ Finset.range x.length, y.getD i 0
    let sumXY := ∑ i ∈ Finset.range x.length, x.getD i 0 * y.getD i 0
    let sumX2 := ∑ i ∈ Finset.range x.length, x.getD i 0 * x.getD i 0
    let sumY2 := ∑ i ∈ Finset.range x.length, y.getD i 0 * y.getD i 0
    ⟨n * sumXY - sumX * sumY,
      (n * sumX2 - sumX * sumX) * (n * sumY2 - sumY * sumY)⟩

/-- The real number the host computes from the correlation data:
`denominator === 0 ? 0 : numerator / denominator` with
`denominator = Math.sqrt(denSq)`. -/
noncomputable def correlationValue (c : CorrelationData) : ℝ :=
  if Real.sqrt (c.denSq : ℝ) = 0 then 0
  else (c.num : ℝ) / Real.sqrt (c.denSq : ℝ)

/-- A pattern tag stored on an analyzer record (`detectPatterns` pushes
`{name, description, color}`). -/
structure PatternTag where
  name : String
  description : String
  color : String
  deriving Repr, DecidableEq

/-- A cycle record produced by `findCycles`. -/
structure CycleRec where
  length : ℕ
  start : ℕ
  repeats : ℕ
  pattern : List ℕ
  totalLength : ℕ
  deriving Repr, DecidableEq

/-- One element of the analyzer's `this.sequences`: the spread of a store
record plus the derived structures computed by the analyzer's
`addSequence`. -/
structure AnalyzerRecord where
  id : String
  startNumber : ℕ
  sequence : List ℕ
  addedAt : ℕ
  statistics : Stats
  patterns : List PatternTag
  cycles : List CycleRec
  convergenceAnalysis : ConvergenceAnalysis
  deriving Repr, DecidableEq

/-- The correlations object of `calculateCorrelations` for ≥ 2 sequences. -/
structure Correlations where
  lengthVsMaxValue : CorrelationData
  startNumberVsLength : CorrelationData
  startNumberVsMaxValue : CorrelationData
  stepsVsLength : CorrelationData
  deriving Repr, DecidableEq

/-- `ComparisonAnalyzer.calculateCorrelations()`: the early
`if (this.sequences.length < 2) return {}` yields `none` (an empty object
with no per-pair values). -/
def calculateCorrelations (seqs : List AnalyzerRecord) : Option Correlations :=
  if seqs.length < 2 then none
  else some
    { lengthVsMaxValue :=
        calculateCorrelation (seqs.map fun s => (s.statistics.length : ℚ))
          (seqs.map fun s => (s.statistics.maxValue : ℚ))
      startNumberVsLength :=
        calculateCorrelation (seqs.map fun s => (s.startNumber : ℚ))
          (seqs.map fun s => (s.statistics.length : ℚ))
      startNumberVsMaxValue :=
        calculateCorrelation (seqs.map fun s => (s.startNumber : ℚ))
          (seqs.map fun s => (s.statistics.maxValue : ℚ))
      stepsVsLength :=
        calculateCorrelation (seqs.map fun s => (s.statistics.steps : ℚ))
          (seqs.map fun s => (s.statistics.length : ℚ)) }

/-- The quartile statistics of `calculateOutlierStats(values)`.  The float
index products are exact: `floor(length * 0.25) = length / 4` and
`floor(length * 0.75) = 3 * length / 4`. -/
structure OutlierStats where
  q1 : ℚ
  q3 : ℚ
  iqr : ℚ
  lowerBound : ℚ
  upperBound : ℚ
  deriving Repr, DecidableEq

/-- `ComparisonAnalyzer.calculateOutlierStats(values)` (ascending numeric
sort as in `sort((a, b) => a - b)`). -/
def calculateOutlierStats (values : List ℚ) : OutlierStats :=
  let sorted := values.insertionSort (· ≤ ·)
  let q1 := sorted.getD (sorted.length / 4) 0
  let q3 := sorted.getD (3 * sorted.length / 4) 0
  let iqr := q3 - q1
  ⟨q1, q3, iqr, q1 - 3 / 2 * iqr, q3 + 3 / 2 * iqr⟩

/-- `ComparisonAnalyzer.calculateAnomalySeverity(value, stats)`. -/
def calculateAnomalySeverity (value : ℚ) (stats : OutlierStats) : String :=
  let distance := |value - (stats.q1 + stats.q3) / 2|
  if stats.iqr * 3 < distance then "high"
  else if stats.iqr * 2 < distance then "medium"
  else "low"

/-- The heterogeneous `value` field of an anomaly (`no_patterns` is a
string). -/
inductive AnomalyValue where
  | num (q : ℚ)
  | str (s : String)
  deriving Repr, DecidableEq

/-- An anomaly object pushed by `findAnomalies`. -/
structure Anomaly where
  type : String
  sequence : AnalyzerRecord
  value : AnomalyValue
  description : String
  severity : String
  deriving Repr, DecidableEq

/-- `ComparisonAnalyzer.findAnomalies()`: length outliers, then max-value
outliers, then pattern-less sequences, in sequence order within each group. -/
def findAnomalies (seqs : List AnalyzerRecord) : List Anomaly :=
  if seqs.length < 3 then []
  else
    let lengths := seqs.map fun s => (s.statistics.length : ℚ)
    let maxValues := seqs.map fun s => (s.statistics.maxValue : ℚ)
    let lengthStats := calculateOutlierStats lengths
    let maxValueStats := calculateOutlierStats maxValues
    (seqs.filterMap fun s =>
      let v : ℚ := s.statistics.length
      if lengthStats.upperBound < v ∨ v < lengthStats.lowerBound then
        some ⟨"length", s, .num v,
          "Длина " ++ toString v ++ " выходит за пределы нормального диапазона",
          calculateAnomalySeverity v lengthStats⟩
      else none) ++
    (seqs.filterMap fun s =>
      let v : ℚ := s.statistics.maxValue
      if maxValueStats.upperBound < v ∨ v < maxValueStats.lowerBound then
        some ⟨"maxValue", s, .num v,
          "Максимальное значение " ++ toString v ++
            " выходит за пределы нормального диапазона",
          calculateAnomalySeverity v maxValueStats⟩
      else none) ++
    (seqs.filterMap fun s =>
      if s.patterns.length = 0 then
        some ⟨"pattern", s, .str "no_patterns",
          "Последовательность не соответствует ни одному известному паттерну",
          "medium"⟩
      else none)

/-- The seven catalog names of `initializePatterns`, in declaration order. -/
def patternNames : List String :=
  ["Быстрая сходимость", "Длинная последовательность", "Высокий пик",
   "Стабильная", "Циклическая", "Экспоненциальный рост", "Плавная сходимость"]

/-- `ComparisonAnalyzer.analyzePatternDistribution()`: the per-catalog-name
tag counts (stored tags originate from the catalog, so counting equals the
source's per-tag increments). -/
def analyzePatternDistribution (seqs : List AnalyzerRecord) :
    List (String × ℕ) :=
  patternNames.map fun n =>
    (n, (seqs.map fun s => (s.patterns.filter fun p => p.name = n).length).sum)

/-- The aggregate of `analyzeCycles`.  The host stores
`mostCommonCycleLength` as the decimal-string object key; it is modelled by
the numeric key itself. -/
structure CycleStatsAgg where
  totalCycles : ℕ
  averageCycleLength : ℚ
  mostCommonCycleLength : ℕ
  sequencesWithCycles : ℕ
  deriving Repr, DecidableEq

/-- First entry of a stable descending-by-count sort of `(key, count)`
entries: the earliest entry holding the maximum count. -/
def argmaxFirstNat (l : List (ℕ × ℕ)) : ℕ :=
  (l.foldl (fun best p => if best.2 < p.2 then p else best) (0, 0)).1

/-- `ComparisonAnalyzer.analyzeCycles()`.  JS object keys that look like
integers enumerate in ascending numeric order, so `Object.entries` followed
by the stable count-descending sort picks the smallest most-frequent cycle
length. -/
def analyzeCycles (seqs : List AnalyzerRecord) : CycleStatsAgg :=
  let cycleLengths : List ℕ :=
    (seqs.filter fun s => 0 < s.cycles.length).flatMap fun s =>
      s.cycles.map fun c => c.length
  if cycleLengths = [] then ⟨0, 0, 0, 0⟩
  else
    { totalCycles := cycleLengths.length
      averageCycleLength := (cycleLengths.sum : ℚ) / (cycleLengths.length : ℚ)
      mostCommonCycleLength :=
        argmaxFirstNat ((cycleLengths.dedup.insertionSort (· ≤ ·)).map
          fun k => (k, cycleLengths.count k))
      sequencesWithCycles := (seqs.filter fun s => 0 < s.cycles.length).length }

/-- The aggregate of `analyzeOverallConvergence`. -/
structure OverallConvergence where
  types : List (String × ℕ)
  averageSpeed : ℚ
  averageStability : ℚ
  dominantType : String
  deriving Repr, DecidableEq

/-- Incrementing a key of a JS object used as a counter map (string keys
enumerate in first-insertion order). -/
def bumpCount : List (String × ℕ) → String → List (String × ℕ)
  | [], k => [(k, 1)]
  | (k', c) :: rest, k =>
    if k' = k then (k', c + 1) :: rest else (k', c) :: bumpCount rest k

/-- First entry of a stable descending-by-count sort of string-keyed counts
(`Object.entries(...).sort(([,a],[,b]) => b - a)[0]`). -/
def argmaxFirstStr : List (String × ℕ) → Option String
  | [] => none
  | e :: rest =>
    some (rest.foldl (fun best p => if best.2 < p.2 then p else best) e).1

/-- `ComparisonAnalyzer.analyzeOverallConvergence()` (every modelled record
carries a `convergenceAnalysis`, so the truthiness guard always passes). -/
def analyzeOverallConvergence (seqs : List AnalyzerRecord) :
    OverallConvergence :=
  let convergenceTypes :=
    seqs.foldl (fun acc s => bumpCount acc s.convergenceAnalysis.convergenceType) []
  let speeds := seqs.map fun s => s.convergenceAnalysis.convergenceSpeed
  let stabilities := seqs.map fun s => s.convergenceAnalysis.stabilityScore
  { types := convergenceTypes
    averageSpeed :=
      if 0 < speeds.length then speeds.sum / (speeds.length : ℚ) else 0
    averageStability :=
      if 0 < stabilities.length then stabilities.sum / (stabilities.length : ℚ)
      else 0
    dominantType := (argmaxFirstStr convergenceTypes).getD "unknown" }

/-- The object built by `updateStatistics` and stored in
`this.statistics`. -/
structure AnalyzerStats where
  totalSequences : ℕ
  averageLength : ℚ
  minLength : ℕ
  maxLength : ℕ
  averageMaxValue : ℚ
  minMaxValue : ℕ
  maxMaxValue : ℕ
  averageSteps : ℚ
  minSteps : ℕ
  maxSteps : ℕ
  patterns : List (String × ℕ)
  correlations : Option Correlations
  cycles : CycleStatsAgg
  convergence : OverallConvergence
  deriving Repr, DecidableEq

/-- `ComparisonAnalyzer.updateStatistics()`: `none` models the empty
`this.statistics = {}` of the zero-sequence branch. -/
def updateStatistics (seqs : List AnalyzerRecord) : Option AnalyzerStats :=
  if seqs.length = 0 then none
  else
    let lengths : List ℕ := seqs.map fun s => s.statistics.length
    let maxValues : List ℕ := seqs.map fun s => s.statistics.maxValue
    let stepCounts : List ℕ := seqs.map fun s => s.statistics.steps
    some
      { totalSequences := seqs.length
        averageLength := (lengths.sum : ℚ) / (lengths.length : ℚ)
        minLength := listMin lengths
        maxLength := listMax lengths
        averageMaxValue := (maxValues.sum : ℚ) / (maxValues.length : ℚ)
        minMaxValue := listMin maxValues
        maxMaxValue := listMax maxValues
        averageSteps := (stepCounts.sum : ℚ) / (stepCounts.length : ℚ)
        minSteps := listMin stepCounts
        maxSteps := listMax stepCounts
        patterns := analyzePatternDistribution seqs
        correlations := calculateCorrelations seqs
        cycles := analyzeCycles seqs
        convergence := analyzeOverallConvergence seqs }

/-- Analyzer instance state: `this.sequences` plus the stored
`this.statistics` blob. -/
structure AnalyzerState where
  sequences : List AnalyzerRecord
  statistics : Option AnalyzerStats
  deriving Repr, DecidableEq

/-- A per-sequence summary row of `generateComparisonReport`. -/
structure ReportRow where
  id : String
  startNumber : ℕ
  length : ℕ
  maxValue : ℕ
  patterns : List PatternTag
  cycles : List CycleRec
  convergenceAnalysis : ConvergenceAnalysis
  deriving Repr, DecidableEq

/-- The object built by `ComparisonAnalyzer.generateComparisonReport()`
(`timestamp: new Date()` is the explicit `now`). -/
structure Report where
  timestamp : ℕ
  totalSequences : ℕ
  statistics : Option AnalyzerStats
  patterns : List (String × ℕ)
  anomalies : List Anomaly
  correlations : Option Correlations
  cycles : CycleStatsAgg
  convergence : OverallConvergence
  sequences : List ReportRow
  deriving Repr, DecidableEq

/-- `ComparisonAnalyzer.generateComparisonReport()`. -/
def generateComparisonReport (st : AnalyzerState) (now : ℕ) : Report :=
  { timestamp := now
    totalSequences := st.sequences.length
    statistics := st.statistics
    patterns := analyzePatternDistribution st.sequences
    anomalies := findAnomalies st.sequences
    correlations := calculateCorrelations st.sequences
    cycles := analyzeCycles st.sequences
    convergence := analyzeOverallConvergence st.sequences
    sequences := st.sequences.map fun s =>
      { id := s.id
        startNumber := s.startNumber
        length := s.statistics.length
        maxValue := s.statistics.maxValue
        patterns := s.patterns
        cycles := s.cycles
        convergenceAnalysis := s.convergenceAnalysis } }

/-- `ComparisonAnalyzer.convertToCSV(report)`: quoted cells joined by commas,
rows joined by newlines; patterns are the names joined by `; `. -/
def convertToCSV (report : Report) : String :=
  let headers := ["ID", "Start Number", "Length", "Max Value", "Patterns",
                  "Cycles", "Convergence Type"]
  let rows := report.sequences.map fun s =>
    [s.id, toString s.startNumber, toString s.length, toString s.maxValue,
     String.intercalate "; " (s.patterns.map fun p => p.name),
     toString s.cycles.length, s.convergenceAnalysis.convergenceType]
  String.intercalate "\n"
    ((headers :: rows).map fun row =>
      String.intercalate "," (row.map fun cell => "\"" ++ cell ++ "\""))

/-- `JSON.stringify(report, null, 2)` is a host builtin; it is modelled by
the canonical structural serialization of the report. -/
def jsonStringify (report : Report) : String := reprStr report

/-- `ComparisonAnalyzer.exportComparisonData(format)`: the report is built
first, then the format dispatch; an unknown format falls through to
`return ''` — no error is thrown. -/
def exportComparisonData (st : AnalyzerState) (now : ℕ) (format : String) :
    String :=
  let report := generateComparisonReport st now
  if format = "json" then jsonStringify report
  else if format = "csv" then convertToCSV report
  else ""

/-! ## Specification-side predicates and concrete fixtures -/

/-- Specification reading of the `smooth` condition (claim C7): the trailing
window is monotonically non-increasing and its final value is at most half
its maximum. -/
def smoothCondition (s : List ℕ) : Prop :=
  List.Chain' (fun a b => b ≤ a) (trailingWindow s) ∧
    2 * (trailingWindow s).getLastD 0 ≤ listMax (trailingWindow s)

instance (s : List ℕ) : Decidable (smoothCondition s) := by
  unfold smoothCondition
  infer_instance

/-- Whether a store event is a removal notification. -/
def isRemovalEvent : DMEvent → Bool
  | .sequenceRemoved _ => true
  | _ => false

/-- Whether a store event is an addition notification. -/
def isAddedEvent : DMEvent → Bool
  | .sequenceAdded _ => true
  | _ => false

/-- Statistics of the one-element sequence `[1]`, used for fixture records. -/
def dummyStats : Stats :=
  { length := 1, maxValue := 1, minValue := 1, steps := 0,
    hasReachedOne := true, startNumber := 1, endNumber := 1,
    averageValue := 1, evenCount := 0, oddCount := 1, maxValueIndex := 0,
    peakToTroughRatio := 1, complexity := 0 }

/-- A fixture store record with id `r<i>`. -/
def dummyRecord (i : ℕ) : SequenceData :=
  { id := "r" ++ toString i, startNumber := 1, sequence := [1],
    statistics := dummyStats, color := "#3b82f6", createdAt := 0,
    patterns := ⟨[], [], [], []⟩ }

/-- A store state already holding ten records. -/
def dm10 : DataManager := ⟨(List.range 10).map dummyRecord, 0⟩

/-- Eleven consecutive `addSequence` operations, for exercising eviction. -/
def elevenAdds : List Op := (List.range 11).map fun i => Op.add i 1 [1]

/-- A fixture analyzer record. -/
def sampleAnalyzerRecord : AnalyzerRecord :=
  { id := "seq_0_1", startNumber := 6, sequence := [6, 3, 10, 5, 16, 8, 4, 2, 1],
    addedAt := 0, statistics := dummyStats, patterns := [], cycles := [],
    convergenceAnalysis := analyzeConvergence [6, 3, 10, 5, 16, 8, 4, 2, 1] }

/-! ## Decimal-representation lemmas

`generateId` embeds the strictly increasing `currentSequenceId` counter in
the id string; to show ids are unique for the process lifetime we prove that
`Nat.repr` is injective and produces no underscore, so distinct counters give
distinct `seq_TIME_COUNTER` strings. -/

/-- The base-10 digits of `n`, most significant first. -/
def natDigits (n : ℕ) : List ℕ :=
  if n < 10 then [n] else natDigits (n / 10) ++ [n % 10]
termination_by n
decreasing_by exact Nat.div_lt_self (by omega) (by norm_num)

theorem natDigits_lt (n : ℕ) : ∀ d ∈ natDigits n, d < 10 := by
  induction n using Nat.strong_induction_on with
  | _ n ih =>
    rw [natDigits]
    split
    · intro d hd
      simp only [List.mem_singleton] at hd
      omega
    · intro d hd
      rcases List.mem_append.mp hd with h | h
      · exact ih (n / 10) (Nat.div_lt_self (by omega) (by norm_num)) d h
      · simp only [List.mem_singleton] at h
        subst h
        exact Nat.mod_lt _ (by norm_num)

/-- The value a most-significant-first digit list denotes. -/
def digitsVal (l : List ℕ) : ℕ :=
  l.foldl (fun a d => 10 * a + d) 0

theorem digitsVal_natDigits (n : ℕ) : digitsVal (natDigits n) = n := by
  induction n using Nat.strong_induction_on with
  | _ n ih =>
    rw [natDigits]
    split
    · simp [digitsVal]
    · rw [digitsVal, List.foldl_append]
      have h := ih (n / 10) (Nat.div_lt_self (by omega) (by norm_num))
      rw [digitsVal] at h
      rw [h]
      simp only [List.foldl_cons, List.foldl_nil]
      omega

theorem natDigits_injective {m n : ℕ} (h : natDigits m = natDigits n) :
    m = n := by
  rw [← digitsVal_natDigits m, ← digitsVal_natDigits n, h]

theorem digitChar_ne_underscore {d : ℕ} (h : d < 10) :
    Nat.digitChar d ≠ '_' := by
  interval_cases d <;> decide

theorem digitChar_inj_lt {a b : ℕ} (ha : a < 10) (hb : b < 10)
    (h : Nat.digitChar a = Nat.digitChar b) : a = b := by
  interval_cases a <;> interval_cases b <;>
    first
      | rfl
      | exact absurd h (by decide)

theorem map_digitChar_inj :
    ∀ {l₁ l₂ : List ℕ}, (∀ d ∈ l₁, d < 10) → (∀ d ∈ l₂, d < 10) →
      l₁.map Nat.digitChar = l₂.map Nat.digitChar → l₁ = l₂ := by
  intro l₁
  induction l₁ with
  | nil =>
    intro l₂ _ _ h
    cases l₂ with
    | nil => rfl
    | cons b t => simp at h
  | cons a t ih =>
    intro l₂ h₁ h₂ h
    cases l₂ with
    | nil => simp at h
    | cons b t₂ =>
      simp only [List.map_cons, List.cons.injEq] at h
      have hab : a = b :=
        digitChar_inj_lt (h₁ a (by simp)) (h₂ b (by simp)) h.1
      have ht : t = t₂ :=
        ih (fun d hd => h₁ d (by simp [hd])) (fun d hd => h₂ d (by simp [hd]))
          h.2
      rw [hab, ht]

theorem toDigitsCore_eq :
    ∀ (fuel n : ℕ) (ds : List Char), 0 < fuel → n < 10 ^ fuel →
      Nat.toDigitsCore 10 fuel n ds = (natDigits n).map Nat.digitChar ++ ds := by
  intro fuel
  induction fuel with
  | zero => intro n ds h; omega
  | succ fuel ih =>
    intro n ds _ hn
    rw [Nat.toDigitsCore]
    by_cases h0 : n / 10 = 0
    · have hlt : n < 10 := by omega
      rw [if_pos h0, natDigits, if_pos hlt, Nat.mod_eq_of_lt hlt]
      simp
    · have hge : 10 ≤ n := by
        rcases Nat.lt_or_ge n 10 with h | h
        · exact absurd (Nat.div_eq_of_lt h) h0
        · exact h
      have hfuel : 0 < fuel := by
        rcases Nat.eq_zero_or_pos fuel with rfl | h
        · simp at hn; omega
        · exact h
      have hdiv : n / 10 < 10 ^ fuel := by
        have h10 : n < 10 * 10 ^ fuel := by
          rw [mul_comm, ← pow_succ]
          exact hn
        exact Nat.div_lt_of_lt_mul h10
      have hnd : natDigits n = natDigits (n / 10) ++ [n % 10] := by
        conv_lhs => rw [natDigits]
        rw [if_neg (by omega)]
      rw [if_neg h0, ih (n / 10) _ hfuel hdiv, hnd]
      simp

theorem repr_data_eq (n : ℕ) :
    (Nat.repr n).data = (natDigits n).map Nat.digitChar := by
  have h : n < 10 ^ (n + 1) :=
    lt_of_lt_of_le (Nat.lt_pow_self (by norm_num) n)
      (Nat.pow_le_pow_right (by norm_num) (Nat.le_succ n))
  rw [Nat.repr, Nat.toDigits, toDigitsCore_eq (n + 1) n [] (Nat.succ_pos n) h]
  simp [List.asString]

theorem repr_data_inj {m n : ℕ}
    (h : (Nat.repr m).data = (Nat.repr n).data) : m = n := by
  rw [repr_data_eq, repr_data_eq] at h
  exact natDigits_injective (map_digitChar_inj (natDigits_lt m) (natDigits_lt n) h)

theorem underscore_not_mem_repr (n : ℕ) : '_' ∉ (Nat.repr n).data := by
  rw [repr_data_eq]
  intro hmem
  rcases List.mem_map.mp hmem with ⟨d, hd, hEq⟩
  exact digitChar_ne_underscore (natDigits_lt n d hd) hEq

theorem append_underscore_inj :
    ∀ (xs₁ : List Char) {xs₂ ys₁ ys₂ : List Char}, '_' ∉ xs₁ → '_' ∉ xs₂ →
      xs₁ ++ '_' :: ys₁ = xs₂ ++ '_' :: ys₂ → xs₁ = xs₂ ∧ ys₁ = ys₂ := by
  intro xs₁
  induction xs₁ with
  | nil =>
    intro xs₂ ys₁ ys₂ _ h₂ h
    cases xs₂ with
    | nil =>
      simp only [List.nil_append, List.cons.injEq] at h
      exact ⟨rfl, h.2⟩
    | cons y t =>
      simp only [List.nil_append, List.cons_append, List.cons.injEq] at h
      exact absurd (h.1 ▸ List.mem_cons_self y t) h₂
  | cons x t ih =>
    intro xs₂ ys₁ ys₂ h₁ h₂ h
    cases xs₂ with
    | nil =>
      simp only [List.cons_append, List.nil_append, List.cons.injEq] at h
      exact absurd (h.1 ▸ List.mem_cons_self x t) h₁
    | cons y t₂ =>
      simp only [List.cons_append, List.cons.injEq] at h
      have := ih (fun hm => h₁ (List.mem_cons_of_mem x hm))
        (fun hm => h₂ (h.1 ▸ List.mem_cons_of_mem x hm)) h.2
      exact ⟨by rw [h.1, this.1], this.2⟩

theorem mkId_inj_counter {t₁ c₁ t₂ c₂ : ℕ}
    (h : mkId t₁ c₁ = mkId t₂ c₂) : c₁ = c₂ := by
  have hd := congrArg String.data h
  simp only [mkId, String.data_append, List.append_assoc] at hd
  have hd' := List.append_cancel_left hd
  simp only [List.singleton_append] at hd'
  have hsplit :=
    append_underscore_inj (toString t₁).data
      (underscore_not_mem_repr t₁) (underscore_not_mem_repr t₂) hd'
  exact repr_data_inj hsplit.2

/-! ## Lemmas about `generateSequence` -/

theorem collatzLoop_chain (fuel : ℕ) :
    ∀ cur, List.Chain' (fun a b => b = if a % 2 = 0 then a / 2 else 3 * a + 1)
      (cur :: collatzLoop fuel cur) := by
  induction fuel with
  | zero => intro cur; simp [collatzLoop]
  | succ fuel ih =>
    intro cur
    rw [collatzLoop]
    split
    · simp
    · exact List.chain'_cons.mpr ⟨rfl, ih _⟩

theorem collatzLoop_last_or_cap (fuel : ℕ) :
    ∀ cur, (cur :: collatzLoop fuel cur).getLast? = some 1 ∨
      ((collatzLoop fuel cur).length = fuel ∧
        (cur :: collatzLoop fuel cur).getLast? ≠ some 1) := by
  induction fuel with
  | zero =>
    intro cur
    by_cases h : cur = 1
    · left; simp [collatzLoop, h]
    · right
      refine ⟨rfl, ?_⟩
      simp [collatzLoop, h]
  | succ fuel ih =>
    intro cur
    by_cases h : cur = 1
    · left; simp [collatzLoop, h]
    · rw [collatzLoop, if_neg h]
      rcases ih (if cur % 2 = 0 then cur / 2 else 3 * cur + 1) with hl | ⟨hlen, hne⟩
      · left
        rw [List.getLast?_cons_cons]
        exact hl
      · right
        refine ⟨by simp [hlen], ?_⟩
        rw [List.getLast?_cons_cons]
        exact hne

theorem generateSequence_ok (n : ℕ) (h : 1 ≤ n) :
    generateSequence (n : ℚ) = Except.ok (n :: collatzLoop maxIterations n) := by
  rw [generateSequence, if_neg]
  · simp
  · push_neg
    constructor
    · simp
    · exact_mod_cast h

theorem generateSequence_error_iff (q : ℚ) :
    (∃ e, generateSequence q = Except.error e) ↔ ¬ (q.den = 1 ∧ 1 ≤ q) := by
  rw [generateSequence]
  split
  · next hcond =>
    constructor
    · rintro - ⟨hden, hle⟩
      rcases hcond with h | h
      · exact h hden
      · exact absurd hle (not_le_of_lt h)
    · intro _
      exact ⟨_, rfl⟩
  · next hcond =>
    push_neg at hcond
    constructor
    · rintro ⟨e, he⟩
      exact Except.noConfusion he
    · intro h
      exact absurd hcond h

/-! ## Lemmas about `calculateStatistics` -/

theorem filter_even_odd_length (l : List ℕ) :
    (l.filter fun n => n % 2 = 0).length + (l.filter fun n => n % 2 = 1).length
      = l.length := by
  induction l with
  | nil => rfl
  | cons a t ih =>
    rcases Nat.mod_two_eq_zero_or_one a with h | h <;>
      simp [List.filter_cons, h, ← ih] <;> omega

theorem foldl_max_le_mem (l : List ℕ) :
    ∀ a, a ≤ l.foldl max a ∧ ∀ x ∈ l, x ≤ l.foldl max a := by
  induction l with
  | nil => intro a; simp
  | cons b t ih =>
    intro a
    refine ⟨le_trans (le_max_left a b) (ih (max a b)).1, ?_⟩
    intro x hx
    rcases List.mem_cons.mp hx with rfl | hx
    · exact le_trans (le_max_right a x) (ih (max a x)).1
    · exact (ih (max a b)).2 x hx

theorem le_listMax {l : List ℕ} {x : ℕ} (hx : x ∈ l) : x ≤ listMax l :=
  (foldl_max_le_mem l 0).2 x hx

theorem foldl_min_le_mem (l : List ℕ) :
    ∀ a, l.foldl min a ≤ a ∧ ∀ x ∈ l, l.foldl min a ≤ x := by
  induction l with
  | nil => intro a; simp
  | cons b t ih =>
    intro a
    refine ⟨le_trans (ih (min a b)).1 (min_le_left a b), ?_⟩
    intro x hx
    rcases List.mem_cons.mp hx with rfl | hx
    · exact le_trans (ih (min a x)).1 (min_le_right a x)
    · exact (ih (min a b)).2 x hx

theorem listMin_le {l : List ℕ} {x : ℕ} (hx : x ∈ l) : listMin l ≤ x := by
  cases l with
  | nil => cases hx
  | cons h t =>
    rcases List.mem_cons.mp hx with rfl | hx
    · exact (foldl_min_le_mem t x).1
    · exact (foldl_min_le_mem t h).2 x hx

theorem sum_le_length_mul_max (l : List ℕ) : l.sum ≤ l.length * listMax l := by
  have := List.sum_le_card_nsmul l (listMax l) fun x hx => le_listMax hx
  simpa [smul_eq_mul] using this

theorem length_mul_min_le_sum (l : List ℕ) : l.length * listMin l ≤ l.sum := by
  have := List.card_nsmul_le_sum l (listMin l) fun x hx => listMin_le hx
  simpa [smul_eq_mul] using this

/-! ## Lemmas about the store operations -/

theorem addSequence_counter (dm : DataManager) (now st : ℕ) (sq : List ℕ) :
    (addSequence dm now st sq).state.currentSequenceId
      = dm.currentSequenceId + 1 := by
  rw [addSequence]
  split <;> rfl

theorem addSequence_record_id (dm : DataManager) (now st : ℕ) (sq : List ℕ)
    {r : SequenceData} (h : (addSequence dm now st sq).record = some r) :
    r.id = mkId now (dm.currentSequenceId + 1) := by
  rw [addSequence] at h
  revert h
  split
  · intro h
    exact Option.noConfusion h
  · intro h
    cases Option.some.inj h
    rfl

theorem applyOp_counter_mono (dm : DataManager) (op : Op) :
    dm.currentSequenceId ≤ (applyOp dm op).currentSequenceId := by
  cases op with
  | add now st sq =>
    rw [applyOp, addSequence_counter]
    omega
  | remove id =>
    rw [applyOp, removeSequence]
    split <;> simp
  | clear => exact le_refl _

theorem length_eraseIdx_le (l : List SequenceData) :
    ∀ i, (l.eraseIdx i).length ≤ l.length := by
  induction l with
  | nil => intro i; simp [List.eraseIdx]
  | cons a t ih =>
    intro i
    cases i with
    | zero => simp [List.eraseIdx]
    | succ j =>
      simp only [List.eraseIdx, List.length_cons]
      exact Nat.succ_le_succ (ih j)

theorem applyOp_length_le (dm : DataManager) (op : Op)
    (h : dm.sequences.length ≤ maxSequences) :
    (applyOp dm op).sequences.length ≤ maxSequences := by
  cases op with
  | add now st sq =>
    rw [applyOp, addSequence]
    split
    · next =>
      simp only
      split <;> simp_all [maxSequences] <;> omega
    · next =>
      simp only [List.length_append, List.length_singleton]
      split <;> simp_all [maxSequences] <;> omega
  | remove id =>
    rw [applyOp, removeSequence]
    split
    · exact h
    · exact le_trans (length_eraseIdx_le _ _) h
  | clear => simp [applyOp, clearSequences, maxSequences]

theorem runOps_length_le (ops : List Op) :
    ∀ dm : DataManager, dm.sequences.length ≤ maxSequences →
      (runOps dm ops).sequences.length ≤ maxSequences := by
  induction ops with
  | nil => intro dm h; exact h
  | cons op rest ih =>
    intro dm h
    exact ih (applyOp dm op) (applyOp_length_le dm op h)

theorem opsIds_spec (ops : List Op) :
    ∀ dm : DataManager, (opsIds dm ops).Nodup ∧
      ∀ id ∈ opsIds dm ops, ∃ t c, id = mkId t c ∧ dm.currentSequenceId < c := by
  induction ops with
  | nil => intro dm; simp [opsIds]
  | cons op rest ih =>
    intro dm
    obtain ⟨hnd, hbd⟩ := ih (applyOp dm op)
    have hmono := applyOp_counter_mono dm op
    cases op with
    | add now st sq =>
      have hcid : (applyOp dm (Op.add now st sq)).currentSequenceId
          = dm.currentSequenceId + 1 := addSequence_counter dm now st sq
      rcases hrec : (addSequence dm now st sq).record with - | r
      · rw [opsIds]
        simp only [hrec, List.nil_append]
        refine ⟨hnd, ?_⟩
        intro id hid
        obtain ⟨t, c, hEq, hlt⟩ := hbd id hid
        exact ⟨t, c, hEq, by omega⟩
      · rw [opsIds]
        simp only [hrec, List.singleton_append, List.nodup_cons]
        have hid : r.id = mkId now (dm.currentSequenceId + 1) :=
          addSequence_record_id dm now st sq hrec
        refine ⟨⟨?_, hnd⟩, ?_⟩
        · intro hmem
          obtain ⟨t, c, hEq, hlt⟩ := hbd r.id hmem
          have : dm.currentSequenceId + 1 = c :=
            mkId_inj_counter (hid ▸ hEq)
          omega
        · intro id hid'
          rcases List.mem_cons.mp hid' with rfl | hmem
          · exact ⟨now, dm.currentSequenceId + 1, hid, by omega⟩
          · obtain ⟨t, c, hEq, hlt⟩ := hbd id hmem
            exact ⟨t, c, hEq, by omega⟩
    | remove id₀ =>
      simp only [opsIds, List.nil_append]
      refine ⟨hnd, ?_⟩
      intro id hid
      obtain ⟨t, c, hEq, hlt⟩ := hbd id hid
      exact ⟨t, c, hEq, by omega⟩
    | clear =>
      simp only [opsIds, List.nil_append]
      refine ⟨hnd, ?_⟩
      intro id hid
      obtain ⟨t, c, hEq, hlt⟩ := hbd id hid
      exact ⟨t, c, hEq, by omega⟩

theorem addSequence_full (dm : DataManager) (now st : ℕ) (sq : List ℕ)
    (hsq : sq ≠ []) (hlen : dm.sequences.length = maxSequences) :
    ∃ rec, (addSequence dm now st sq).record = some rec ∧
      (addSequence dm now st sq).state.sequences
        = dm.sequences.tail ++ [rec] := by
  rw [addSequence]
  rcases hc : calculateStatistics sq with - | stats
  · rw [calculateStatistics, if_neg hsq] at hc
    exact Option.noConfusion hc
  · refine ⟨_, rfl, ?_⟩
    simp only [if_pos (le_of_eq hlen.symm), List.drop_one]

/-! ## Lemmas about `analyzeConvergence` -/

theorem isDecreasingJS_iff (l : List ℕ) :
    isDecreasingJS l = true ↔ List.Chain' (fun a b => b ≤ a) l := by
  rw [isDecreasingJS, List.all_eq_true, List.chain'_iff_get]
  constructor
  · intro h i hi
    have hmem : i + 1 ∈ List.range l.length := List.mem_range.mpr (by omega)
    have hstep := h (i + 1) hmem
    simp only [beq_iff_eq, Bool.or_eq_true, decide_eq_true_eq] at hstep
    rcases hstep with h0 | hle
    · omega
    · have h1 : i + 1 < l.length := by omega
      have h2 : i < l.length := by omega
      rw [List.getD_eq_getElem l 0 h1, Nat.add_sub_cancel,
        List.getD_eq_getElem l 0 h2] at hle
      simpa using hle
  · intro h x hx
    have hxlen : x < l.length := List.mem_range.mp hx
    cases x with
    | zero => simp
    | succ j =>
      have hj : j < l.length - 1 := by omega
      have hstep := h j hj
      simp only [Bool.or_eq_true, beq_iff_eq, decide_eq_true_eq]
      right
      rw [List.getD_eq_getElem l 0 hxlen, Nat.add_sub_cancel,
        List.getD_eq_getElem l 0 (by omega : j < l.length)]
      simpa using hstep

theorem isConverging_iff (lv : List ℕ) :
    ((lv.getLastD 0 : ℚ) ≤ (listMax lv : ℚ) * (1 / 2)) ↔
      2 * lv.getLastD 0 ≤ listMax lv := by
  rw [mul_one_div, le_div_iff₀ (by norm_num : (0 : ℚ) < 2),
    show ((lv.getLastD 0 : ℚ)) * 2 = ((2 * lv.getLastD 0 : ℕ) : ℚ) by
      push_cast; ring]
  exact Nat.cast_le

theorem smooth_cond_iff (s : List ℕ) :
    (isDecreasingJS (trailingWindow s) &&
      decide (((trailingWindow s).getLastD 0 : ℚ)
        ≤ (listMax (trailingWindow s) : ℚ) * (1 / 2))) = true
      ↔ smoothCondition s := by
  rw [Bool.and_eq_true, isDecreasingJS_iff, decide_eq_true_eq,
    isConverging_iff]
  exact Iff.rfl

/-! ## Cauchy-Schwarz bound for the Pearson correlation data -/

theorem sum_centered_mul (m : ℕ) (f g : ℕ → ℚ) :
    ∑ i ∈ Finset.range m,
        ((m : ℚ) * f i - ∑ j ∈ Finset.range m, f j) *
          ((m : ℚ) * g i - ∑ j ∈ Finset.range m, g j)
      = (m : ℚ) * ((m : ℚ) * (∑ i ∈ Finset.range m, f i * g i)
          - (∑ i ∈ Finset.range m, f i) * (∑ i ∈ Finset.range m, g i)) := by
  calc ∑ i ∈ Finset.range m,
        ((m : ℚ) * f i - ∑ j ∈ Finset.range m, f j) *
          ((m : ℚ) * g i - ∑ j ∈ Finset.range m, g j)
      = ∑ i ∈ Finset.range m,
          ((m : ℚ) * (m : ℚ) * (f i * g i)
            - ((m : ℚ) * (∑ j ∈ Finset.range m, g j)) * f i
            - ((m : ℚ) * (∑ j ∈ Finset.range m, f j)) * g i
            + (∑ j ∈ Finset.range m, f j) * (∑ j ∈ Finset.range m, g j)) := by
        refine Finset.sum_congr rfl ?_
        intro i _
        ring
    _ = (m : ℚ) * (m : ℚ) * (∑ i ∈ Finset.range m, f i * g i)
          - ((m : ℚ) * (∑ j ∈ Finset.range m, g j)) * (∑ i ∈ Finset.range m, f i)
          - ((m : ℚ) * (∑ j ∈ Finset.range m, f j)) * (∑ i ∈ Finset.range m, g i)
          + ((m : ℕ) : ℚ) * ((∑ j ∈ Finset.range m, f j) * (∑ j ∈ Finset.range m, g j)) := by
        rw [Finset.sum_add_distrib, Finset.sum_sub_distrib, Finset.sum_sub_distrib,
          ← Finset.mul_sum, ← Finset.mul_sum, ← Finset.mul_sum,
          Finset.sum_const, Finset.card_range, nsmul_eq_mul]
    _ = (m : ℚ) * ((m : ℚ) * (∑ i ∈ Finset.range m, f i * g i)
          - (∑ i ∈ Finset.range m, f i) * (∑ i ∈ Finset.range m, g i)) := by
        ring

theorem calculateCorrelation_cs (x y : List ℚ) :
    (calculateCorrelation x y).num ^ 2 ≤ (calculateCorrelation x y).denSq := by
  rw [calculateCorrelation]
  split_ifs with hcond
  · norm_num
  · push_neg at hcond
    obtain ⟨hxy, hx0⟩ := hcond
    dsimp only
    have hmpos : (0 : ℚ) < (x.length : ℚ) := by
      have h0 : 0 < x.length := Nat.pos_of_ne_zero hx0
      exact_mod_cast h0
    have h1 := sum_centered_mul x.length (fun i => x.getD i 0) (fun i => y.getD i 0)
    have h2 := sum_centered_mul x.length (fun i => x.getD i 0) (fun i => x.getD i 0)
    have h3 := sum_centered_mul x.length (fun i => y.getD i 0) (fun i => y.getD i 0)
    have key := Finset.sum_mul_sq_le_sq_mul_sq (Finset.range x.length)
      (fun i => (x.length : ℚ) * x.getD i 0 - ∑ j ∈ Finset.range x.length, x.getD j 0)
      (fun i => (x.length : ℚ) * y.getD i 0 - ∑ j ∈ Finset.range x.length, y.getD j 0)
    simp only [pow_two] at key
    rw [h1, h2, h3] at key
    set M : ℚ := (x.length : ℚ) with hM
    set SX := ∑ j ∈ Finset.range x.length, x.getD j 0 with hSX
    set SY := ∑ j ∈ Finset.range x.length, y.getD j 0 with hSY
    set SXY := ∑ i ∈ Finset.range x.length, x.getD i 0 * y.getD i 0 with hSXY
    set SX2 := ∑ i ∈ Finset.range x.length, x.getD i 0 * x.getD i 0 with hSX2
    set SY2 := ∑ i ∈ Finset.range x.length, y.getD i 0 * y.getD i 0 with hSY2
    have key2 : M ^ 2 * ((M * SXY - SX * SY) * (M * SXY - SX * SY))
        ≤ M ^ 2 * ((M * SX2 - SX * SX) * (M * SY2 - SY * SY)) := by
      calc M ^ 2 * ((M * SXY - SX * SY) * (M * SXY - SX * SY))
          = M * (M * SXY - SX * SY) * (M * (M * SXY - SX * SY)) := by ring
        _ ≤ M * (M * SX2 - SX * SX) * (M * (M * SY2 - SY * SY)) := key
        _ = M ^ 2 * ((M * SX2 - SX * SX) * (M * SY2 - SY * SY)) := by ring
    have key3 := le_of_mul_le_mul_left key2 (pow_pos hmpos 2)
    rw [pow_two]
    exact key3

theorem correlationValue_bounds (c : CorrelationData)
    (hcs : c.num ^ 2 ≤ c.denSq) :
    -1 ≤ correlationValue c ∧ correlationValue c ≤ 1 ∧
      (c.denSq = 0 → correlationValue c = 0) := by
  rw [correlationValue]
  split_ifs with h
  · norm_num
  · have hpos : (0 : ℝ) < Real.sqrt (c.denSq : ℝ) :=
      lt_of_le_of_ne (Real.sqrt_nonneg _) (Ne.symm h)
    have hnum : |(c.num : ℝ)| ≤ Real.sqrt (c.denSq : ℝ) := by
      rw [← Real.sqrt_sq_eq_abs]
      apply Real.sqrt_le_sqrt
      exact_mod_cast hcs
    have habs : |(c.num : ℝ) / Real.sqrt (c.denSq : ℝ)| ≤ 1 := by
      rw [abs_div, abs_of_pos hpos, div_le_one hpos]
      exact hnum
    refine ⟨(abs_le.mp habs).1, (abs_le.mp habs).2, ?_⟩
    intro h0
    exact absurd (by rw [h0]; norm_num) h

/-! ## Claim theorems -/

/-- C1: for every positive integer `start`, `generateSequence(start)`
returns a list whose first element is `start`, in which every adjacent pair
`(a, b)` satisfies `b = a/2` for even `a` and `b = 3a+1` for odd `a` (the
invariant in fact holds for every pair, capped or not), and whenever the
statistics field `hasReachedOne` holds the last element is `1`. -/
theorem claim1_sequence_structure (n : ℕ) (h : 1 ≤ n) :
    ∃ s, generateSequence (n : ℚ) = Except.ok s ∧
      s.headD 0 = n ∧
      List.Chain' (fun a b => b = if a % 2 = 0 then a / 2 else 3 * a + 1) s ∧
      ∀ st, calculateStatistics s = some st → st.hasReachedOne = true →
        s.getLast? = some 1 := by
  refine ⟨n :: collatzLoop maxIterations n, generateSequence_ok n h, rfl,
    collatzLoop_chain _ _, ?_⟩
  intro st hst htrue
  rw [calculateStatistics, if_neg (List.cons_ne_nil _ _)] at hst
  cases Option.some.inj hst
  exact of_decide_eq_true htrue

/-- Witness for C1 at `start = 6`. -/
theorem claim1_sequence_structure_witness :
    ∃ s, generateSequence ((6 : ℕ) : ℚ) = Except.ok s ∧
      s.headD 0 = 6 ∧
      List.Chain' (fun a b => b = if a % 2 = 0 then a / 2 else 3 * a + 1) s ∧
      ∀ st, calculateStatistics s = some st → st.hasReachedOne = true →
        s.getLast? = some 1 :=
  claim1_sequence_structure 6 (by norm_num)

/-- C2: the known values: `generateSequence(27)` has length 112, maximum
9232 and reaches 1; `generateSequence(1)` is `[1]` with length 1, steps 0,
`hasReachedOne` true; `generateSequence(6)` is `[6,3,10,5,16,8,4,2,1]` of
length 9. -/
theorem claim2_known_values :
    ((generateSequence (27 : ℚ)).toOption.bind calculateStatistics).map
        (fun st => (st.length, st.maxValue, st.hasReachedOne))
      = some (112, 9232, true) ∧
    (generateSequence (1 : ℚ)).toOption = some [1] ∧
    ((generateSequence (1 : ℚ)).toOption.bind calculateStatistics).map
        (fun st => (st.length, st.steps, st.hasReachedOne))
      = some (1, 0, true) ∧
    (generateSequence (6 : ℚ)).toOption = some [6, 3, 10, 5, 16, 8, 4, 2, 1] ∧
    ((generateSequence (6 : ℚ)).toOption.map List.length) = some 9 := by
  refine ⟨by decide, by decide, by decide, by decide, by decide⟩

/-- C4: `generateSequence` fails exactly when the input is not a positive
integer; every positive integer input yields a result, and a run that does
not reach 1 is the capped partial sequence (`maxIterations + 1` elements,
`hasReachedOne` false) rather than an error. -/
theorem claim4_error_handling :
    (∀ q : ℚ,
      (∃ e, generateSequence q = Except.error e) ↔ ¬ (q.den = 1 ∧ 1 ≤ q)) ∧
    ∀ n : ℕ, 1 ≤ n → ∃ s, generateSequence (n : ℚ) = Except.ok s ∧
      (s.getLast? = some 1 ∨
        (s.length = maxIterations + 1 ∧
          ∀ st, calculateStatistics s = some st → st.hasReachedOne = false)) := by
  refine ⟨generateSequence_error_iff, ?_⟩
  intro n h
  refine ⟨n :: collatzLoop maxIterations n, generateSequence_ok n h, ?_⟩
  rcases collatzLoop_last_or_cap maxIterations n with hl | ⟨hlen, hne⟩
  · exact Or.inl hl
  · refine Or.inr ⟨by simp [hlen], ?_⟩
    intro st hst
    rw [calculateStatistics, if_neg (List.cons_ne_nil _ _)] at hst
    cases Option.some.inj hst
    exact decide_eq_false hne

/-- Witness for C4 at `start = 5` and (for the error part) `start = -3`. -/
theorem claim4_error_handling_witness :
    (∃ e, generateSequence (-3 : ℚ) = Except.error e) ∧
    ∃ s, generateSequence ((5 : ℕ) : ℚ) = Except.ok s ∧
      (s.getLast? = some 1 ∨
        (s.length = maxIterations + 1 ∧
          ∀ st, calculateStatistics s = some st → st.hasReachedOne = false)) :=
  ⟨(claim4_error_handling.1 (-3)).mpr (by norm_num),
    claim4_error_handling.2 5 (by norm_num)⟩

/-- C3: starting from a fresh store, any sequence of `addSequence`,
`removeSequence` and `clearSequences` operations leaves at most 10 records;
an `addSequence` on a store holding 10 records drops the oldest (head) record
and appends the new record last; and the ids assigned across the whole
operation trace are pairwise distinct. -/
theorem claim3_store_invariants :
    (∀ ops : List Op, (runOps initDM ops).sequences.length ≤ maxSequences) ∧
    (∀ ops : List Op, (opsIds initDM ops).Nodup) ∧
    ∀ (ops : List Op) (now st : ℕ) (sq : List ℕ), sq ≠ [] →
      (runOps initDM ops).sequences.length = maxSequences →
      ∃ rec, (addSequence (runOps initDM ops) now st sq).record = some rec ∧
        (addSequence (runOps initDM ops) now st sq).state.sequences
          = (runOps initDM ops).sequences.tail ++ [rec] :=
  ⟨fun ops => runOps_length_le ops initDM (by norm_num [initDM]),
   fun ops => (opsIds_spec ops initDM).1,
   fun ops now st sq hsq hlen => addSequence_full _ now st sq hsq hlen⟩

/-- Witness for C3: after eleven additions the store holds 10 records and a
further addition evicts the oldest and appends the new record. -/
theorem claim3_store_invariants_witness :
    ∃ rec, (addSequence (runOps initDM elevenAdds) 99 1 [1]).record = some rec ∧
      (addSequence (runOps initDM elevenAdds) 99 1 [1]).state.sequences
        = (runOps initDM elevenAdds).sequences.tail ++ [rec] :=
  claim3_store_invariants.2.2 elevenAdds 99 1 [1] (by decide) (by decide)

/-- C9 counterexample: on a store already holding 10 records, `addSequence`
emits an addition notification but no removal notification for the evicted
record (the claim asserts observers are notified of both), even though the
eviction does happen (the store still holds 10 records afterwards). -/
theorem claim9_counterexample :
    dm10.sequences.length = maxSequences ∧
    (addSequence dm10 0 1 [1]).events.any isRemovalEvent = false ∧
    (addSequence dm10 0 1 [1]).events.any isAddedEvent = true ∧
    (addSequence dm10 0 1 [1]).state.sequences.length = maxSequences := by
  decide

/-- C9 amended: when `addSequence` is called with 10 records present, the
oldest record is evicted and the new one appended, but observers are
notified only of the addition — the emitted event list is exactly the
single `sequenceAdded` event, with no removal event. -/
theorem claim9_eviction_notification_amended (dm : DataManager)
    (now st : ℕ) (sq : List ℕ) (hsq : sq ≠ [])
    (hlen : dm.sequences.length = maxSequences) :
    ∃ rec, (addSequence dm now st sq).record = some rec ∧
      (addSequence dm now st sq).events = [DMEvent.sequenceAdded rec] ∧
      (addSequence dm now st sq).events.any isRemovalEvent = false ∧
      (addSequence dm now st sq).state.sequences
        = dm.sequences.tail ++ [rec] := by
  rw [addSequence]
  rcases hc : calculateStatistics sq with - | stats
  · rw [calculateStatistics, if_neg hsq] at hc
    exact Option.noConfusion hc
  · refine ⟨_, rfl, rfl, rfl, ?_⟩
    simp only [if_pos (le_of_eq hlen.symm), List.drop_one]

/-- Witness for C9 amended at the concrete full store `dm10`. -/
theorem claim9_eviction_notification_amended_witness :
    ∃ rec, (addSequence dm10 3 1 [1]).record = some rec ∧
      (addSequence dm10 3 1 [1]).events = [DMEvent.sequenceAdded rec] ∧
      (addSequence dm10 3 1 [1]).events.any isRemovalEvent = false ∧
      (addSequence dm10 3 1 [1]).state.sequences
        = dm10.sequences.tail ++ [rec] :=
  claim9_eviction_notification_amended dm10 3 1 [1] (by decide) (by decide)

/-- C6: `findAnomalies` returns the empty list whenever fewer than 3
sequences are held, and it is a pure function of the held sequences: equal
analyzer states give equal anomaly lists. -/
theorem claim6_anomalies :
    (∀ seqs : List AnalyzerRecord, seqs.length < 3 → findAnomalies seqs = []) ∧
    ∀ s t : List AnalyzerRecord, s = t → findAnomalies s = findAnomalies t := by
  constructor
  · intro seqs h
    rw [findAnomalies, if_pos h]
  · intro s t h
    rw [h]

/-- Witness for C6 at a one-record analyzer state. -/
theorem claim6_anomalies_witness :
    findAnomalies [sampleAnalyzerRecord] = [] ∧
    findAnomalies [sampleAnalyzerRecord]
      = findAnomalies [sampleAnalyzerRecord] :=
  ⟨claim6_anomalies.1 [sampleAnalyzerRecord] (by norm_num),
   claim6_anomalies.2 [sampleAnalyzerRecord] [sampleAnalyzerRecord] rfl⟩

/-- C7 counterexample: `analyzeConvergence` on the one-element sequence `[1]`
returns convergence type `unknown`, which is none of `smooth`, `oscillating`,
`irregular` — the claim's classification only covers sequences of length at
least 3. -/
theorem claim7_counterexample :
    (analyzeConvergence [1]).convergenceType = "unknown" ∧
    ¬ ((analyzeConvergence [1]).convergenceType = "smooth" ∨
       (analyzeConvergence [1]).convergenceType = "oscillating" ∨
       (analyzeConvergence [1]).convergenceType = "irregular") := by
  decide

/-- C7 amended: for every sequence of length at least 3 (shorter sequences
get type `unknown`), the convergence type is exactly one of `smooth`,
`oscillating`, `irregular`, chosen as: `smooth` iff the trailing window is
monotonically non-increasing and its final value is at most half its maximum;
otherwise `oscillating` iff the oscillation level exceeds 1/2; otherwise
`irregular`; with convergence speeds `1 - oscillationLevel`, `1/2` and `3/10`
respectively. -/
theorem claim7_convergence_amended (s : List ℕ) (h : 3 ≤ s.length) :
    ((analyzeConvergence s).convergenceType = "smooth" ∨
      (analyzeConvergence s).convergenceType = "oscillating" ∨
      (analyzeConvergence s).convergenceType = "irregular") ∧
    ((analyzeConvergence s).convergenceType = "smooth" ↔ smoothCondition s) ∧
    ((analyzeConvergence s).convergenceType = "oscillating" ↔
      ¬ smoothCondition s ∧ 1 / 2 < (analyzeConvergence s).oscillationLevel) ∧
    ((analyzeConvergence s).convergenceType = "irregular" ↔
      ¬ smoothCondition s ∧ (analyzeConvergence s).oscillationLevel ≤ 1 / 2) ∧
    ((analyzeConvergence s).convergenceType = "smooth" →
      (analyzeConvergence s).convergenceSpeed
        = 1 - (analyzeConvergence s).oscillationLevel) ∧
    ((analyzeConvergence s).convergenceType = "oscillating" →
      (analyzeConvergence s).convergenceSpeed = 1 / 2) ∧
    ((analyzeConvergence s).convergenceType = "irregular" →
      (analyzeConvergence s).convergenceSpeed = 3 / 10) := by
  have hsm := smooth_cond_iff s
  rw [analyzeConvergence, if_neg (by omega)]
  simp only
  split_ifs with h1 h2
  · have hs : smoothCondition s := hsm.mp h1
    dsimp only
    exact ⟨Or.inl rfl, iff_of_true rfl hs,
      iff_of_false (by decide) (fun hc => absurd hs hc.1),
      iff_of_false (by decide) (fun hc => absurd hs hc.1),
      fun _ => rfl,
      fun habs => absurd habs (by decide),
      fun habs => absurd habs (by decide)⟩
  · have hns : ¬ smoothCondition s := fun hs => h1 (hsm.mpr hs)
    dsimp only
    exact ⟨Or.inr (Or.inl rfl),
      iff_of_false (by decide) (fun hs => absurd hs hns),
      iff_of_true rfl ⟨hns, h2⟩,
      iff_of_false (by decide) (fun hc => absurd h2 (not_lt_of_le hc.2)),
      fun habs => absurd habs (by decide),
      fun _ => rfl,
      fun habs => absurd habs (by decide)⟩
  · have hns : ¬ smoothCondition s := fun hs => h1 (hsm.mpr hs)
    dsimp only
    exact ⟨Or.inr (Or.inr rfl),
      iff_of_false (by decide) (fun hs => absurd hs hns),
      iff_of_false (by decide) (fun hc => absurd hc.2 h2),
      iff_of_true rfl ⟨hns, not_lt.mp h2⟩,
      fun habs => absurd habs (by decide),
      fun habs => absurd habs (by decide),
      fun _ => rfl⟩

/-- Witness for C7 amended at the sequence `[4, 2, 1]`. -/
theorem claim7_convergence_amended_witness :
    (((analyzeConvergence [4, 2, 1]).convergenceType = "smooth" ∨
      (analyzeConvergence [4, 2, 1]).convergenceType = "oscillating" ∨
      (analyzeConvergence [4, 2, 1]).convergenceType = "irregular") ∧
    ((analyzeConvergence [4, 2, 1]).convergenceType = "smooth" ↔
      smoothCondition [4, 2, 1]) ∧
    ((analyzeConvergence [4, 2, 1]).convergenceType = "oscillating" ↔
      ¬ smoothCondition [4, 2, 1] ∧
        1 / 2 < (analyzeConvergence [4, 2, 1]).oscillationLevel) ∧
    ((analyzeConvergence [4, 2, 1]).convergenceType = "irregular" ↔
      ¬ smoothCondition [4, 2, 1] ∧
        (analyzeConvergence [4, 2, 1]).oscillationLevel ≤ 1 / 2) ∧
    ((analyzeConvergence [4, 2, 1]).convergenceType = "smooth" →
      (analyzeConvergence [4, 2, 1]).convergenceSpeed
        = 1 - (analyzeConvergence [4, 2, 1]).oscillationLevel) ∧
    ((analyzeConvergence [4, 2, 1]).convergenceType = "oscillating" →
      (analyzeConvergence [4, 2, 1]).convergenceSpeed = 1 / 2) ∧
    ((analyzeConvergence [4, 2, 1]).convergenceType = "irregular" →
      (analyzeConvergence [4, 2, 1]).convergenceSpeed = 3 / 10)) :=
  claim7_convergence_amended [4, 2, 1] (by norm_num)

/-- C5 counterexample: with a single held sequence (fewer than 2),
`calculateCorrelations` returns the empty object — no per-pair value of `0`
(or of anything else) is returned, contrary to the claim that each declared
pair yields exactly `0`. -/
theorem claim5_counterexample :
    [sampleAnalyzerRecord].length < 2 ∧
      calculateCorrelations [sampleAnalyzerRecord] = none := by
  constructor
  · norm_num
  · rfl

/-- C5 amended: with fewer than 2 sequences `calculateCorrelations` returns
the empty object (no pairs); with at least 2 sequences every declared pair's
Pearson value lies in `[-1, 1]`, and equals `0` whenever the pair's squared
denominator (product of the two variance terms) is `0`. -/
theorem claim5_correlations_amended :
    (∀ seqs : List AnalyzerRecord, seqs.length < 2 →
      calculateCorrelations seqs = none) ∧
    ∀ seqs : List AnalyzerRecord, 2 ≤ seqs.length →
      ∃ c, calculateCorrelations seqs = some c ∧
        ∀ d ∈ [c.lengthVsMaxValue, c.startNumberVsLength,
               c.startNumberVsMaxValue, c.stepsVsLength],
          -1 ≤ correlationValue d ∧ correlationValue d ≤ 1 ∧
            (d.denSq = 0 → correlationValue d = 0) := by
  constructor
  · intro seqs h
    rw [calculateCorrelations, if_pos h]
  · intro seqs h
    rw [calculateCorrelations, if_neg (by omega)]
    refine ⟨_, rfl, ?_⟩
    intro d hd
    simp only [List.mem_cons, List.not_mem_nil, or_false] at hd
    rcases hd with rfl | rfl | rfl | rfl <;>
      exact correlationValue_bounds _ (calculateCorrelation_cs _ _)

/-- Witness for C5 amended at a two-record analyzer state. -/
theorem claim5_correlations_amended_witness :
    calculateCorrelations [sampleAnalyzerRecord] = none ∧
    ∃ c, calculateCorrelations [sampleAnalyzerRecord, sampleAnalyzerRecord]
        = some c ∧
      ∀ d ∈ [c.lengthVsMaxValue, c.startNumberVsLength,
             c.startNumberVsMaxValue, c.stepsVsLength],
        -1 ≤ correlationValue d ∧ correlationValue d ≤ 1 ∧
          (d.denSq = 0 → correlationValue d = 0) :=
  ⟨claim5_correlations_amended.1 [sampleAnalyzerRecord] (by norm_num),
   claim5_correlations_amended.2 [sampleAnalyzerRecord, sampleAnalyzerRecord]
     (by norm_num)⟩

/-- C8 counterexample: for the unsupported format `xml` the export returns
the empty string normally — no `UnsupportedFormatError` (or any error) is
raised. -/
theorem claim8_counterexample :
    exportComparisonData ⟨[], none⟩ 0 "xml" = "" := rfl

/-- C8 amended: `exportComparisonData` serializes the freshly generated
comparison report for format `json` (structural serialization standing for
`JSON.stringify`) and as CSV text for format `csv`; for every other format
value it returns the empty string instead of failing. -/
theorem claim8_export_amended (st : AnalyzerState) (now : ℕ) (format : String) :
    (format = "json" →
      exportComparisonData st now format
        = jsonStringify (generateComparisonReport st now)) ∧
    (format = "csv" →
      exportComparisonData st now format
        = convertToCSV (generateComparisonReport st now)) ∧
    (format ≠ "json" → format ≠ "csv" →
      exportComparisonData st now format = "") := by
  refine ⟨?_, ?_, ?_⟩
  · intro h
    rw [exportComparisonData, if_pos h]
  · intro h
    rw [exportComparisonData, if_neg (by simp [h]), if_pos h]
  · intro h1 h2
    rw [exportComparisonData, if_neg h1, if_neg h2]

/-- Witness for C8 amended at the empty analyzer state and format `xml`. -/
theorem claim8_export_amended_witness :
    exportComparisonData ⟨[], none⟩ 0 "json"
        = jsonStringify (generateComparisonReport ⟨[], none⟩ 0) ∧
    exportComparisonData ⟨[], none⟩ 0 "csv"
        = convertToCSV (generateComparisonReport ⟨[], none⟩ 0) ∧
    exportComparisonData ⟨[], none⟩ 0 "xml" = "" :=
  ⟨(claim8_export_amended ⟨[], none⟩ 0 "json").1 rfl,
   (claim8_export_amended ⟨[], none⟩ 0 "csv").2.1 rfl,
   (claim8_export_amended ⟨[], none⟩ 0 "xml").2.2 (by decide) (by decide)⟩

/-- C10: on any non-empty sequence of positive integers the computed
statistics satisfy `evenCount + oddCount = length` and
`minValue ≤ averageValue ≤ maxValue`. -/
theorem claim10_statistics_invariants (l : List ℕ) (hne : l ≠ [])
    (hpos : ∀ x ∈ l, 0 < x) :
    ∃ st, calculateStatistics l = some st ∧
      st.evenCount + st.oddCount = st.length ∧
      (st.minValue : ℚ) ≤ st.averageValue ∧
      st.averageValue ≤ (st.maxValue : ℚ) := by
  have hlen : 0 < l.length := List.length_pos.mpr hne
  have hlenQ : (0 : ℚ) < (l.length : ℚ) := by exact_mod_cast hlen
  refine ⟨_, by rw [calculateStatistics, if_neg hne], ?_, ?_, ?_⟩
  · exact filter_even_odd_length l
  · show (listMin l : ℚ) ≤ (l.sum : ℚ) / (l.length : ℚ)
    rw [le_div_iff₀ hlenQ]
    have := length_mul_min_le_sum l
    calc (listMin l : ℚ) * (l.length : ℚ)
        = ((l.length * listMin l : ℕ) : ℚ) := by push_cast; ring
      _ ≤ (l.sum : ℚ) := by exact_mod_cast this
  · show (l.sum : ℚ) / (l.length : ℚ) ≤ (listMax l : ℚ)
    rw [div_le_iff₀ hlenQ]
    have := sum_le_length_mul_max l
    calc (l.sum : ℚ) ≤ ((l.length * listMax l : ℕ) : ℚ) := by exact_mod_cast this
      _ = (listMax l : ℚ) * (l.length : ℚ) := by push_cast; ring

/-- Witness for C10 at the sequence `[2, 1]`. -/
theorem claim10_statistics_invariants_witness :
    ∃ st, calculateStatistics [2, 1] = some st ∧
      st.evenCount + st.oddCount = st.length ∧
      (st.minValue : ℚ) ≤ st.averageValue ∧
      st.averageValue ≤ (st.maxValue : ℚ) :=
  claim10_statistics_invariants [2, 1] (by decide) (by decide)

end Collatz
